import Mathlib

/-!
Verification of the SIS kernel production-readiness gate: benchmark
orchestration, statistical analysis, and the validation-gate pipeline.

The Python sources are shallowly embedded:
* numeric observations become exact rationals (`ℚ`);
* fallible code (`raise`) becomes `Except`;
* Python dictionaries with optional keys become structures with `Option`
  fields, mirroring each `dict.get(key, default)` with `Option.getD`;
* the cooperative scheduler is pure: `asyncio.gather(..., return_exceptions
  =True)` over node tasks becomes a `map` over each task's `Except` value;
  wall-clock timestamps are irrelevant to every property considered and are
  abstracted to `0`.
-/

namespace SIS

/-- Python `int(x)` truncates toward zero; on `x ≥ 0` (the only regime the
sources use it in) this is the floor. -/
def pyTrunc (x : ℚ) : ℤ :=
  if 0 ≤ x then ⌊x⌋ else -⌊-x⌋

/-- The interpolated rank `index = (percentile / 100) * (len(sorted_data) - 1)`
computed by `_percentile` (test_orchestrator.py:471). -/
def rankIdx (data : List ℚ) (p : ℚ) : ℚ :=
  p / 100 * ((data.length : ℚ) - 1)

/-- Embeds `QEMUTestOrchestrator._percentile` (test_orchestrator.py:465-478).
Sorts a copy of the data, computes the interpolated rank `rankIdx`, returns
the element there if the rank is integral (`index == int(index)`) and
otherwise interpolates linearly between the two adjacent sorted elements
(`lower` at `int(index)`, `upper` at `int(index) + 1`).  Returns `0` for an
empty series. -/
def percentile (data : List ℚ) (p : ℚ) : ℚ :=
  if data.isEmpty then 0
  else if rankIdx data p = (pyTrunc (rankIdx data p) : ℚ) then
    (data.insertionSort (· ≤ ·)).getD (pyTrunc (rankIdx data p)).toNat 0
  else
    (data.insertionSort (· ≤ ·)).getD (pyTrunc (rankIdx data p)).toNat 0 +
      ((data.insertionSort (· ≤ ·)).getD ((pyTrunc (rankIdx data p)).toNat + 1) 0 -
        (data.insertionSort (· ≤ ·)).getD (pyTrunc (rankIdx data p)).toNat 0) *
      (rankIdx data p - (pyTrunc (rankIdx data p) : ℚ))

/-- The standard median, written from the spec's words ("the standard median
definition": middle sorted element for odd length, mean of the two middle
sorted elements for even length).  Reference point for the
`percentile(S, 50)` claim. -/
def medianSpec (data : List ℚ) : ℚ :=
  let sorted := data.insertionSort (· ≤ ·)
  let n := data.length
  if n % 2 = 1 then sorted.getD (n / 2) 0
  else (sorted.getD (n / 2 - 1) 0 + sorted.getD (n / 2) 0) / 2

/-- Embeds `statistics.mean`: the arithmetic mean `sum / n` (soak_report.py uses it
in `calculate_statistics` and `detect_anomalies`). -/
def sampleMean (values : List ℚ) : ℚ :=
  values.sum / (values.length : ℚ)

/-- The square of `statistics.stdev(values)`: the sample variance
`Σ (x - mean)² / (n - 1)`.  `statistics.stdev` itself is the (generally
irrational) square root of this value; every comparison the sources make
against it is embedded exactly through this radicand. -/
def sampleVarQ (values : List ℚ) : ℚ :=
  (values.map (fun x => (x - sampleMean values) ^ 2)).sum / ((values.length : ℚ) - 1)

/-- Python `min(list)` (0 on the empty list, unreachable in the sources). -/
def pyMin : List ℚ → ℚ
  | [] => 0
  | a :: t => t.foldl min a

/-- Python `max(list)` (0 on the empty list, unreachable in the sources). -/
def pyMax : List ℚ → ℚ
  | [] => 0
  | a :: t => t.foldl max a

/-- The statistics dictionary built by `calculate_statistics`
(soak_report.py:73-87).  `stdevSq` records the exact square of the reported
`stdev` field (see `sampleVarQ`). -/
structure SoakStats where
  count : ℕ
  min : ℚ
  max : ℚ
  mean : ℚ
  median : ℚ
  stdevSq : ℚ
  p95 : ℚ
  p99 : ℚ
deriving DecidableEq

/-- Embeds `calculate_statistics` (soak_report.py:73-87).  Returns the empty
dictionary (here `none`) when fewer than 2 values are supplied; otherwise
count/min/max/mean/median/stdev plus p95 and p99 fields that use the sorted
series only above the sample-size thresholds 20 resp. 100 and otherwise fall
back to the maximum.  The Python index `int(len(values) * 0.95)` is embedded
with the exact rational `95 / 100` (the source's float literal denotes the
nearest double; no claim below depends on lengths where the two differ). -/
def calculate_statistics (values : List ℚ) : Option SoakStats :=
  if values.length < 2 then none
  else some
    { count := values.length
      min := pyMin values
      max := pyMax values
      mean := sampleMean values
      median := medianSpec values
      stdevSq := sampleVarQ values
      p95 :=
        if 20 < values.length then
          (values.insertionSort (· ≤ ·)).getD
            (pyTrunc ((values.length : ℚ) * (95 / 100))).toNat 0
        else pyMax values
      p99 :=
        if 100 < values.length then
          (values.insertionSort (· ≤ ·)).getD
            (pyTrunc ((values.length : ℚ) * (99 / 100))).toNat 0
        else pyMax values }

/-- The z-score test of `detect_anomalies` (soak_report.py:98-101):
`z_score = abs(value - mean) / stdev if stdev > 0 else 0` followed by
`z_score > threshold`.  With `stdev = √varS` this Boolean is equivalent,
exactly, to the rational comparisons below: for `stdev > 0` and a
non-negative threshold, `|v - m| / √varS > t ↔ (v - m)² > t² · varS`; a
negative threshold is always exceeded by a non-negative z-score; and when
`stdev = 0` the z-score is the literal `0`. -/
def zThresholdExceeded (mean varS threshold value : ℚ) : Bool :=
  if 0 < varS then
    if threshold < 0 then true
    else decide (threshold ^ 2 * varS < (value - mean) ^ 2)
  else decide (threshold < 0)

/-- Embeds `detect_anomalies(values, threshold=3.0)` (soak_report.py:90-104):
returns `[]` for fewer than 10 samples, otherwise the indices (in order)
whose z-score against the sample mean and sample standard deviation exceeds
the threshold. -/
def detect_anomalies (values : List ℚ) (threshold : ℚ) : List ℕ :=
  if values.length < 10 then []
  else
    (List.range values.length).filter fun i =>
      zThresholdExceeded (sampleMean values) (sampleVarQ values) threshold
        (values.getD i 0)

/-- Modelled from the spec: the square of the POPULATION standard deviation
(`Σ (x - mean)² / n`), which the spec's description of `detect_anomalies`
("computes population mean/stdev once") attributes to the code.  The code
actually calls `statistics.stdev`, the sample deviation; this definition
exists to compare the two behaviours. -/
def populationVarQ (values : List ℚ) : ℚ :=
  (values.map (fun x => (x - sampleMean values) ^ 2)).sum / (values.length : ℚ)

/-- Modelled from the spec: `detect_anomalies` as the spec describes it,
with the population standard deviation in the z-score. -/
def detectAnomaliesPopulationSpec (values : List ℚ) (threshold : ℚ) : List ℕ :=
  if values.length < 10 then []
  else
    (List.range values.length).filter fun i =>
      zThresholdExceeded (sampleMean values) (populationVarQ values) threshold
        (values.getD i 0)

/-- Embeds `TestResult` (test_orchestrator.py:21-31): one scenario outcome on one
node.  The metric mapping becomes an association list. -/
structure TestResult where
  test_name : String
  node_id : ℕ
  start_time : ℚ
  end_time : ℚ
  success : Bool
  metrics : List (String × ℚ)
  logs : List String
  error_message : Option String := none
deriving DecidableEq

/-- One entry of `summary["test_breakdown"]`
(test_orchestrator.py:445-450). -/
structure PerfBreakdownEntry where
  total : ℕ
  passed : ℕ
  failed : ℕ
  success_rate : ℚ
deriving DecidableEq

/-- The performance-suite summary dictionary
(test_orchestrator.py:434-439); the breakdown keeps Python's dict insertion
order (first occurrence of each test name). -/
structure PerfSummary where
  total_tests : ℕ
  passed_tests : ℕ
  failed_tests : ℕ
  test_breakdown : List (String × PerfBreakdownEntry)
deriving DecidableEq

/-- The distributed-suite summary dictionary
(test_orchestrator.py:456-463). -/
structure DistSummary where
  total_nodes : ℕ
  byzantine_tolerance : ℕ
  total_tests : ℕ
  passed_tests : ℕ
  failed_tests : ℕ
  consensus_capable : Bool
deriving DecidableEq

/-- A suite summary is one of the two dictionary shapes above (the Python
field is `Dict[str, any]`). -/
inductive SuiteSummary where
  | perf (s : PerfSummary)
  | dist (s : DistSummary)
deriving DecidableEq

/-- Embeds `TestSuite` (test_orchestrator.py:33-41). -/
structure TestSuite where
  suite_name : String
  start_time : ℚ
  end_time : ℚ
  node_count : ℕ
  results : List TestResult
  summary : SuiteSummary
deriving DecidableEq

/-- The `total_tests` count of either summary shape. -/
def SuiteSummary.totalTests : SuiteSummary → ℕ
  | .perf s => s.total_tests
  | .dist s => s.total_tests

/-- The keys of `by_test` in Python dict insertion order: first occurrence of
each test name (test_orchestrator.py:428-432). -/
def firstKeys : List String → List String
  | [] => []
  | a :: t => a :: (firstKeys t).filter (fun x => x != a)

/-- Embeds `_calculate_performance_summary` (test_orchestrator.py:426-452): totals,
pass/fail counts, and a per-test-name breakdown grouped in first-occurrence
order. -/
def calculate_performance_summary (results : List TestResult) : PerfSummary :=
  { total_tests := results.length
    passed_tests := (results.filter (fun r => r.success)).length
    failed_tests := (results.filter (fun r => !r.success)).length
    test_breakdown :=
      (firstKeys (results.map (fun r => r.test_name))).map fun t =>
        let group := results.filter (fun r => r.test_name == t)
        let passed := (group.filter (fun r => r.success)).length
        (t, { total := group.length
              passed := passed
              failed := group.length - passed
              success_rate :=
                if 0 < group.length then (passed : ℚ) / (group.length : ℚ) else 0 }) }

/-- Embeds `_calculate_distributed_summary` (test_orchestrator.py:454-463). -/
def calculate_distributed_summary (results : List TestResult) (nodes : ℕ) :
    DistSummary :=
  { total_nodes := nodes
    byzantine_tolerance := nodes / 3
    total_tests := results.length
    passed_tests := (results.filter (fun r => r.success)).length
    failed_tests := (results.filter (fun r => !r.success)).length
    consensus_capable := results.all (fun r => r.success) }

/-- The failed `TestResult` that `_run_ai_inference_tests` builds when a
gathered node task returned an exception (test_orchestrator.py:116-125):
`success=False`, empty metrics and logs, `error_message=str(result)`. -/
def failedInferenceResult (node_id : ℕ) (msg : String) : TestResult :=
  { test_name := "ai_inference"
    node_id := node_id
    start_time := 0
    end_time := 0
    success := false
    metrics := []
    logs := []
    error_message := some msg }

/-- Embeds `_run_ai_inference_tests` (test_orchestrator.py:99-129): one task per
node id 1..N, gathered with `return_exceptions=True`; each exception is
converted in place into a failed `TestResult`, every other slot keeps the
task's own result.  The per-node task body (which may raise) is the
injectable collaborator `task`. -/
def run_ai_inference_tests (nodes : ℕ)
    (task : ℕ → Except String TestResult) : List TestResult :=
  (List.range' 1 nodes).map fun node_id =>
    match task node_id with
    | .error e => failedInferenceResult node_id e
    | .ok r => r

/-- The suite assembly at the end of `run_performance_benchmark`
(test_orchestrator.py:88-97): freeze the collected results with the summary
computed from them. -/
def mkPerformanceSuite (nodes : ℕ) (results : List TestResult) : TestSuite :=
  { suite_name := "performance_benchmark"
    start_time := 0
    end_time := 0
    node_count := nodes
    results := results
    summary := .perf (calculate_performance_summary results) }

/-- Embeds `_run_byzantine_consensus_test` (test_orchestrator.py:339-370), with the
simulated metrics: `consensus_time_ms = 3.5 + nodes * 0.1`, target `< 5` ms,
node id 0. -/
def byzantine_consensus_test (nodes : ℕ) : TestResult :=
  { test_name := "byzantine_consensus"
    node_id := 0
    start_time := 0
    end_time := 0
    success := decide ((35 / 10 + (nodes : ℚ) * (1 / 10)) < 5)
    metrics := [("consensus_time_ms", 35 / 10 + (nodes : ℚ) * (1 / 10)),
                ("total_nodes", (nodes : ℚ)),
                ("byzantine_nodes", ((nodes / 3 : ℕ) : ℚ)),
                ("rounds", 3),
                ("messages_exchanged", ((nodes * (nodes - 1) * 3 : ℕ) : ℚ))]
    logs := ["Byzantine consensus test with " ++ toString nodes ++ " nodes, f=" ++
        toString (nodes / 3)] }

/-- Embeds `_run_leader_election_test` (test_orchestrator.py:372-397):
`election_time_ms = 75 + nodes * 2`, target `< 100` ms, node id 0. -/
def leader_election_test (nodes : ℕ) : TestResult :=
  { test_name := "leader_election"
    node_id := 0
    start_time := 0
    end_time := 0
    success := decide ((75 + (nodes : ℚ) * 2) < 100)
    metrics := [("election_time_ms", 75 + (nodes : ℚ) * 2),
                ("total_nodes", (nodes : ℚ)), ("rounds", 2)]
    logs := ["Leader election test with " ++ toString nodes ++ " nodes"] }

/-- Embeds `_run_partition_recovery_test` (test_orchestrator.py:399-424):
`recovery_time_ms = 200 + nodes * 5`, target `< 500` ms, node id 0. -/
def partition_recovery_test (nodes : ℕ) : TestResult :=
  { test_name := "partition_recovery"
    node_id := 0
    start_time := 0
    end_time := 0
    success := decide ((200 + (nodes : ℚ) * 5) < 500)
    metrics := [("recovery_time_ms", 200 + (nodes : ℚ) * 5),
                ("total_nodes", (nodes : ℚ)),
                ("partitioned_nodes", ((nodes / 2 : ℕ) : ℚ))]
    logs := ["Partition recovery test with " ++ toString nodes ++ " nodes"] }

/-- Embeds `run_distributed_consensus_tests` (test_orchestrator.py:304-337): raises
`ValueError` for fewer than 4 nodes BEFORE running any scenario step;
otherwise runs the three cluster-wide steps sequentially and freezes the
suite.  The scenario steps are injectable so that independence from them can
be stated; the concrete simulated steps are the three definitions above. -/
def run_distributed_consensus_tests (nodes : ℕ)
    (byzantineStep electionStep partitionStep : ℕ → TestResult) :
    Except String TestSuite :=
  if nodes < 4 then
    .error ("Distributed consensus requires at least 4 nodes, got " ++ toString nodes)
  else
    .ok
      { suite_name := "distributed_consensus"
        start_time := 0
        end_time := 0
        node_count := nodes
        results := [byzantineStep nodes, electionStep nodes, partitionStep nodes]
        summary := .dist (calculate_distributed_summary
          [byzantineStep nodes, electionStep nodes, partitionStep nodes] nodes) }

/-- A successful per-node result used to exercise the fan-out/gather model in
concrete instances. -/
def demoOk (j : ℕ) : TestResult :=
  { test_name := "ai_inference"
    node_id := j
    start_time := 0
    end_time := 0
    success := true
    metrics := [("mean_latency_us", 21)]
    logs := ["ok"]
    error_message := none }

/-- A task family where exactly node 2 raises (message "boom") and every
other node returns `demoOk`. -/
def demoTask (j : ℕ) : Except String TestResult :=
  if j = 2 then .error "boom" else .ok (demoOk j)

/-- A small concrete result used to instantiate summary statements. -/
def demoResult (name : String) (ok : Bool) : TestResult :=
  { test_name := name
    node_id := 1
    start_time := 0
    end_time := 0
    success := ok
    metrics := []
    logs := []
    error_message := none }

/-- Three concrete results over two scenario groups. -/
def demoResults : List TestResult :=
  [demoResult "ai_inference" true, demoResult "throughput" false,
    demoResult "ai_inference" false]

/-- The suite `run_distributed_consensus_tests` produces for 5 nodes with
the concrete simulated steps. -/
def demoDistSuite : TestSuite :=
  { suite_name := "distributed_consensus"
    start_time := 0
    end_time := 0
    node_count := 5
    results := [byzantine_consensus_test 5, leader_election_test 5,
      partition_recovery_test 5]
    summary := .dist (calculate_distributed_summary
      [byzantine_consensus_test 5, leader_election_test 5,
        partition_recovery_test 5] 5) }

/-- A classified finding of the Validation Gate (validate_results.py).  The
Python findings are formatted strings; each constructor captures one emission
site with the data interpolated into its message. -/
inductive Finding where
  | missingSections (sections : List String)
  | noValidationResults
  | overallScoreBelow (score : ℚ)
  | coverageBelowRequired (name : String) (actual : ℚ)
  | coverageBelowRecommended (name : String) (actual : ℚ)
  | memorySafetyViolations (count : ℕ)
  | criticalVulnerabilities (count : ℕ)
  | performanceFailing (claims : List String)
  | aiAccuracyBelow (accuracy : ℚ)
  | unparsableAccuracy (measured : String)
  | tooManyFailures (count : ℕ)
  | failedTestsList (claims : List String)
deriving DecidableEq

/-- One element of `validation_results` (`{claim, passed, measured}`); every
field is optional because each access in the source is a `dict.get` with a
default. -/
structure VEntry where
  claim : Option String
  passed : Option Bool
  measured : Option String
deriving DecidableEq

/-- The `coverage` section; each fraction is read with default 0.0. -/
structure CoverageSec where
  security_coverage : Option ℚ
  correctness_coverage : Option ℚ
  performance_coverage : Option ℚ
  ai_coverage : Option ℚ
deriving DecidableEq

/-- The `summary` section. -/
structure SummarySec where
  overall_score : Option ℚ
deriving DecidableEq

/-- A results document as the Gate reads it (validate_results.py): the three
recognized top-level sections, each possibly absent.  Following the spec's
design note, the duck-typed dictionary is modelled as an explicit schema. -/
structure ResultsDoc where
  summary : Option SummarySec
  coverage : Option CoverageSec
  validation_results : Option (List VEntry)
deriving DecidableEq

/-- Helper `startsWithChars p s`: `p` begins the character list `s`. -/
def startsWithChars : List Char → List Char → Bool
  | [], _ => true
  | _ :: _, [] => false
  | a :: as, b :: bs => a == b && startsWithChars as bs

/-- Helper `occursChars p s`: `p` occurs contiguously inside `s`. -/
def occursChars (p : List Char) : List Char → Bool
  | [] => p.isEmpty
  | c :: t => startsWithChars p (c :: t) || occursChars p t

/-- Python `pat in s` on strings: contiguous substring containment. -/
def strContainsSub (s pat : String) : Bool :=
  occursChars pat.toList s.toList

/-- Embeds `self.results.get('validation_results', [])`. -/
def ResultsDoc.entries (doc : ResultsDoc) : List VEntry :=
  doc.validation_results.getD []

/-- Embeds `result.get('claim', '')`. -/
def VEntry.claimD (e : VEntry) : String := e.claim.getD ""

/-- Embeds `result.get('passed', True)`: an entry without the field counts as
passed. -/
def VEntry.passedD (e : VEntry) : Bool := e.passed.getD true

/-- Embeds `result.get('measured', '0%')`. -/
def VEntry.measuredD (e : VEntry) : String := e.measured.getD "0%"

/-- Threshold `overall_score_minimum` of `THRESHOLDS` (validate_results.py:22-32). -/
def overall_score_minimum : ℚ := 80

/-- Threshold `THRESHOLDS['security_coverage_minimum']`. -/
def security_coverage_minimum : ℚ := 100

/-- Threshold `THRESHOLDS['correctness_coverage_minimum']`. -/
def correctness_coverage_minimum : ℚ := 100

/-- Threshold `THRESHOLDS['performance_coverage_minimum']`. -/
def performance_coverage_minimum : ℚ := 50

/-- Threshold `THRESHOLDS['ai_coverage_minimum']`. -/
def ai_coverage_minimum : ℚ := 95

/-- Threshold `THRESHOLDS['memory_safety_violations_maximum']`. -/
def memory_safety_violations_maximum : ℕ := 0

/-- Threshold `THRESHOLDS['critical_vulnerabilities_maximum']`. -/
def critical_vulnerabilities_maximum : ℕ := 0

/-- Threshold `THRESHOLDS['ai_accuracy_minimum']` (99.9). -/
def ai_accuracy_minimum : ℚ := 999 / 10

/-- Threshold `THRESHOLDS['max_acceptable_failures']`. -/
def max_acceptable_failures : ℕ := 2

/-- Embeds `validate_overall_score` (validate_results.py:50-60); returns the
(errors, warnings) it appends. -/
def validate_overall_score (doc : ResultsDoc) : List Finding × List Finding :=
  let score := ((doc.summary.getD { overall_score := none }).overall_score).getD 0
  if score < overall_score_minimum then ([.overallScoreBelow score], [])
  else ([], [])

/-- Embeds `validate_coverage` (validate_results.py:62-87): the four checks in
iteration order; security and correctness shortfalls are errors, performance
and AI shortfalls are warnings.  Each fraction is `coverage.get(key, 0.0) *
100`. -/
def validate_coverage (doc : ResultsDoc) : List Finding × List Finding :=
  let sec := (doc.coverage.bind (fun c => c.security_coverage)).getD 0 * 100
  let corr := (doc.coverage.bind (fun c => c.correctness_coverage)).getD 0 * 100
  let perf := (doc.coverage.bind (fun c => c.performance_coverage)).getD 0 * 100
  let ai := (doc.coverage.bind (fun c => c.ai_coverage)).getD 0 * 100
  ((if sec < security_coverage_minimum then
      [.coverageBelowRequired "Security" sec] else []) ++
    (if corr < correctness_coverage_minimum then
      [.coverageBelowRequired "Correctness" corr] else []),
   (if perf < performance_coverage_minimum then
      [.coverageBelowRecommended "Performance" perf] else []) ++
    (if ai < ai_coverage_minimum then
      [.coverageBelowRecommended "AI/ML" ai] else []))

/-- The count of failed claims whose text contains "Memory Safety"
(validate_results.py:91-96). -/
def memoryViolations (doc : ResultsDoc) : ℕ :=
  (doc.entries.filter fun e =>
    strContainsSub e.claimD "Memory Safety" && !e.passedD).length

/-- The count of failed claims whose text contains "Vulnerabilities"
(validate_results.py:106-111). -/
def criticalVulns (doc : ResultsDoc) : ℕ :=
  (doc.entries.filter fun e =>
    strContainsSub e.claimD "Vulnerabilities" && !e.passedD).length

/-- Embeds `validate_security_metrics` (validate_results.py:89-119). -/
def validate_security_metrics (doc : ResultsDoc) : List Finding × List Finding :=
  ((if memory_safety_violations_maximum < memoryViolations doc then
      [.memorySafetyViolations (memoryViolations doc)] else []) ++
    (if critical_vulnerabilities_maximum < criticalVulns doc then
      [.criticalVulnerabilities (criticalVulns doc)] else []), [])

/-- The failed claims containing "Inference" or "Context Switch"
(validate_results.py:125-129). -/
def performanceFailures (doc : ResultsDoc) : List String :=
  (doc.entries.filter fun e =>
    (strContainsSub e.claimD "Inference" ||
      strContainsSub e.claimD "Context Switch") && !e.passedD).map
    fun e => e.claimD

/-- Embeds `validate_performance_metrics` (validate_results.py:121-136): failing
performance claims are collected into a single warning, never an error. -/
def validate_performance_metrics (doc : ResultsDoc) :
    List Finding × List Finding :=
  if 0 < (performanceFailures doc).length then
    ([], [.performanceFailing (performanceFailures doc)])
  else ([], [])

/-- Embeds `validate_ai_metrics` (validate_results.py:138-157): for each passed
claim containing "Inference Accuracy", parse `measured` with `'%'` stripped;
a parsed accuracy below the minimum is an error, an unparsable value a
warning.  Python `float(...)` (and its `ValueError`) is abstracted as the
injected partial parse `pf`; no property below depends on its exact
domain. -/
def validate_ai_metrics (pf : String → Option ℚ) (doc : ResultsDoc) :
    List Finding × List Finding :=
  doc.entries.foldl
    (fun acc e =>
      if strContainsSub e.claimD "Inference Accuracy" && e.passedD then
        match pf (e.measuredD.replace "%" "") with
        | some accu =>
            if accu < ai_accuracy_minimum then
              (acc.1 ++ [.aiAccuracyBelow accu], acc.2)
            else acc
        | none => (acc.1, acc.2 ++ [.unparsableAccuracy e.measuredD])
      else acc)
    ([], [])

/-- The total failed-claim count (validate_results.py:161-167). -/
def totalFailures (doc : ResultsDoc) : ℕ :=
  (doc.entries.filter fun e => !e.passedD).length

/-- The failed claims listed by `validate_test_execution` (default text
`'Unknown test'`). -/
def failedClaims (doc : ResultsDoc) : List String :=
  (doc.entries.filter fun e => !e.passedD).map fun e =>
    e.claim.getD "Unknown test"

/-- Embeds `validate_test_execution` (validate_results.py:159-176): two errors when
the failure count exceeds the maximum. -/
def validate_test_execution (doc : ResultsDoc) : List Finding × List Finding :=
  if max_acceptable_failures < totalFailures doc then
    ([.tooManyFailures (totalFailures doc), .failedTestsList (failedClaims doc)],
      [])
  else ([], [])

/-- Embeds `validate_data_integrity` (validate_results.py:178-199): an error names
the missing required sections, and a second error fires when the (defaulted)
`validation_results` list is empty. -/
def validate_data_integrity (doc : ResultsDoc) : List Finding × List Finding :=
  let missing :=
    (if doc.summary = none then ["summary"] else []) ++
      (if doc.coverage = none then ["coverage"] else []) ++
      (if doc.validation_results = none then ["validation_results"] else [])
  ((if missing ≠ [] then [.missingSections missing] else []) ++
    (if doc.entries.length = 0 then [.noValidationResults] else []), [])

/-- Embeds `run_validation` (validate_results.py:201-235): every check runs, the
findings accumulate in call order, and `success` is `errors == []`. -/
def run_validation (pf : String → Option ℚ) (doc : ResultsDoc) :
    Bool × List Finding × List Finding :=
  let di := validate_data_integrity doc
  let os := validate_overall_score doc
  let cov := validate_coverage doc
  let sec := validate_security_metrics doc
  let perf := validate_performance_metrics doc
  let ai := validate_ai_metrics pf doc
  let te := validate_test_execution doc
  let errors := di.1 ++ os.1 ++ cov.1 ++ sec.1 ++ perf.1 ++ ai.1 ++ te.1
  let warnings := di.2 ++ os.2 ++ cov.2 ++ sec.2 ++ perf.2 ++ ai.2 ++ te.2
  (errors.isEmpty, errors, warnings)

/-- Embeds `main` (validate_results.py:247-267): in strict mode, when warnings
exist, success is forced false and the warnings are moved into the error
list. -/
def gate_main (strict : Bool) (pf : String → Option ℚ) (doc : ResultsDoc) :
    Bool × List Finding × List Finding :=
  let r := run_validation pf doc
  if strict && !r.2.2.isEmpty then (false, r.2.1 ++ r.2.2, [])
  else r

/-- A document producing zero errors and one warning: score 85, security /
correctness / AI coverage at 100%, performance coverage 30% (below its
advisory minimum of 50%), one passing claim. -/
def demoWarnDoc : ResultsDoc :=
  { summary := some { overall_score := some 85 }
    coverage := some
      { security_coverage := some 1
        correctness_coverage := some 1
        performance_coverage := some (3 / 10)
        ai_coverage := some 1 }
    validation_results := some
      [{ claim := some "Boot Test", passed := some true,
         measured := some "ok" }] }

/-- A document whose sections are present but whose result list is empty. -/
def demoEmptyResultsDoc : ResultsDoc :=
  { summary := some { overall_score := some 85 }
    coverage := some
      { security_coverage := some 1
        correctness_coverage := some 1
        performance_coverage := some 1
        ai_coverage := some 1 }
    validation_results := some [] }

/-- A document whose entries all omit the `passed` field. -/
def demoNoPassDoc : ResultsDoc :=
  { summary := some { overall_score := some 85 }
    coverage := some
      { security_coverage := some 1
        correctness_coverage := some 1
        performance_coverage := some 1
        ai_coverage := some 1 }
    validation_results := some
      [{ claim := some "Memory Safety check", passed := none, measured := none },
       { claim := some "Vulnerabilities scan", passed := none, measured := none },
       { claim := some "Inference latency", passed := none, measured := none }] }

/-- The `memory` section fields consulted by `validate_variability`
(validate_stress_results.py:190,197). -/
structure MemorySec where
  peak_pressure : Option ℤ
  oom_events : Option ℤ
deriving DecidableEq

/-- One historical run as `validate_variability` reads it: only the
(optional) `memory` section is consulted. -/
structure HistoricalRun where
  memory : Option MemorySec
deriving DecidableEq

/-- A finding of the stress validator's variability check; both are
warnings. -/
inductive StressFinding where
  | noVariabilityPeak (runs : ℕ)
  | noVariabilityOom (runs : ℕ)
deriving DecidableEq

/-- Embeds `validate_variability` (validate_stress_results.py:180-204): with fewer
than 2 historical runs nothing is checked; with at least 3 historical memory
sections, a tracked metric (peak pressure, then OOM events) present in at
least one section and taking exactly one distinct value yields an
advisory. -/
def validate_variability (historical : List HistoricalRun) :
    List StressFinding :=
  if historical.length < 2 then []
  else
    let memory_results := historical.filterMap fun r => r.memory
    if 3 ≤ memory_results.length then
      let peaks := memory_results.filterMap fun m => m.peak_pressure
      let ooms := memory_results.filterMap fun m => m.oom_events
      (if peaks ≠ [] ∧ peaks.dedup.length = 1 then
        [.noVariabilityPeak peaks.length] else []) ++
      (if ooms ≠ [] ∧ ooms.dedup.length = 1 then
        [.noVariabilityOom ooms.length] else [])
    else []

/-- A historical run whose memory section records only `oom_events = k`. -/
def mkOomRun (k : ℤ) : HistoricalRun :=
  { memory := some { peak_pressure := none, oom_events := some k } }

theorem pyTrunc_of_nonneg {x : ℚ} (h : 0 ≤ x) : pyTrunc x = ⌊x⌋ := by
  simp [pyTrunc, h]

theorem pyTrunc_natCast (k : ℕ) : pyTrunc (k : ℚ) = k := by
  rw [pyTrunc_of_nonneg (by positivity)]
  exact_mod_cast Int.floor_natCast k

/-- In a `≤`-sorted list, earlier entries are at most later (in-range)
entries; stated with `getD` to match the embedding of Python indexing. -/
theorem sorted_getD_mono {s : List ℚ} (hs : s.Sorted (· ≤ ·)) {i j : ℕ}
    (hij : i ≤ j) (hj : j < s.length) : s.getD i 0 ≤ s.getD j 0 := by
  have hi : i < s.length := lt_of_le_of_lt hij hj
  rw [List.getD_eq_getElem s 0 hi, List.getD_eq_getElem s 0 hj]
  rcases eq_or_lt_of_le hij with h | h
  · subst h; exact le_rfl
  · exact List.pairwise_iff_get.mp hs ⟨i, hi⟩ ⟨j, hj⟩ h

theorem percentile_of_integral {data : List ℚ} {p : ℚ} (h : data.isEmpty = false)
    (hi : rankIdx data p = (pyTrunc (rankIdx data p) : ℚ)) :
    percentile data p =
      (data.insertionSort (· ≤ ·)).getD (pyTrunc (rankIdx data p)).toNat 0 := by
  rw [percentile, h]
  simp only [Bool.false_eq_true, if_false, if_pos hi]

theorem percentile_of_not_integral {data : List ℚ} {p : ℚ} (h : data.isEmpty = false)
    (hi : rankIdx data p ≠ (pyTrunc (rankIdx data p) : ℚ)) :
    percentile data p =
      (data.insertionSort (· ≤ ·)).getD (pyTrunc (rankIdx data p)).toNat 0 +
        ((data.insertionSort (· ≤ ·)).getD ((pyTrunc (rankIdx data p)).toNat + 1) 0 -
          (data.insertionSort (· ≤ ·)).getD (pyTrunc (rankIdx data p)).toNat 0) *
        (rankIdx data p - (pyTrunc (rankIdx data p) : ℚ)) := by
  rw [percentile, h]
  simp only [Bool.false_eq_true, if_false, if_neg hi]

theorem isEmpty_false_of_ne_nil {data : List ℚ} (h : data ≠ []) :
    data.isEmpty = false := by
  simpa [List.isEmpty_iff] using h

theorem percentile_zero_min {data : List ℚ} (hne : data ≠ []) :
    percentile data 0 ∈ data ∧ ∀ x ∈ data, percentile data 0 ≤ x := by
  have hemp := isEmpty_false_of_ne_nil hne
  have hidx : rankIdx data 0 = 0 := by unfold rankIdx; ring
  have htr : pyTrunc (rankIdx data 0) = 0 := by rw [hidx]; simp [pyTrunc]
  have hint : rankIdx data 0 = (pyTrunc (rankIdx data 0) : ℚ) := by
    rw [htr, hidx]; norm_num
  have hres : percentile data 0 = (data.insertionSort (· ≤ ·)).getD 0 0 := by
    rw [percentile_of_integral hemp hint, htr]; rfl
  have hperm : List.Perm (data.insertionSort (· ≤ ·)) data := List.perm_insertionSort _ data
  have hsort : List.Sorted (· ≤ ·) (data.insertionSort (· ≤ ·)) :=
    List.sorted_insertionSort _ data
  obtain ⟨a, t, hst⟩ : ∃ a t, data.insertionSort (· ≤ ·) = a :: t := by
    cases hs : data.insertionSort (· ≤ ·) with
    | nil =>
        exfalso
        have hlen := hperm.length_eq
        rw [hs] at hlen
        exact hne (List.length_eq_zero.mp hlen.symm)
    | cons a t => exact ⟨a, t, rfl⟩
  rw [hres, hst]
  have hgd : (a :: t).getD 0 0 = a := rfl
  rw [hgd]
  constructor
  · exact hperm.subset (by rw [hst]; exact List.mem_cons_self a t)
  · intro x hx
    have hxs : x ∈ a :: t := by rw [← hst]; exact hperm.mem_iff.mpr hx
    rcases List.mem_cons.mp hxs with h | h
    · exact le_of_eq h.symm
    · have := List.sorted_cons.mp (hst ▸ hsort)
      exact this.1 x h

theorem percentile_hundred_max {data : List ℚ} (hne : data ≠ []) :
    percentile data 100 ∈ data ∧ ∀ x ∈ data, x ≤ percentile data 100 := by
  have hemp := isEmpty_false_of_ne_nil hne
  have hnpos : 0 < data.length := List.length_pos.mpr hne
  have hidx : rankIdx data 100 = ((data.length - 1 : ℕ) : ℚ) := by
    unfold rankIdx
    rw [Nat.cast_sub hnpos]
    push_cast
    ring
  have htr : pyTrunc (rankIdx data 100) = ((data.length - 1 : ℕ) : ℤ) := by
    rw [hidx]; exact pyTrunc_natCast _
  have hint : rankIdx data 100 = (pyTrunc (rankIdx data 100) : ℚ) := by
    rw [htr, hidx]; push_cast; ring
  have hres : percentile data 100 =
      (data.insertionSort (· ≤ ·)).getD (data.length - 1) 0 := by
    rw [percentile_of_integral hemp hint, htr]; simp
  have hperm : List.Perm (data.insertionSort (· ≤ ·)) data := List.perm_insertionSort _ data
  have hsort : List.Sorted (· ≤ ·) (data.insertionSort (· ≤ ·)) :=
    List.sorted_insertionSort _ data
  have hlen : (data.insertionSort (· ≤ ·)).length = data.length :=
    List.length_insertionSort _ data
  have hlast : data.length - 1 < (data.insertionSort (· ≤ ·)).length := by omega
  constructor
  · rw [hres, List.getD_eq_getElem _ 0 hlast]
    exact hperm.subset (List.getElem_mem hlast)
  · intro x hx
    have hxs : x ∈ data.insertionSort (· ≤ ·) := hperm.mem_iff.mpr hx
    obtain ⟨i, hi, hxi⟩ := List.mem_iff_getElem.mp hxs
    rw [hres, ← hxi, ← List.getD_eq_getElem _ 0 hi]
    exact sorted_getD_mono hsort (by omega) hlast

theorem percentile_fifty_median {data : List ℚ} (hne : data ≠ []) :
    percentile data 50 = medianSpec data := by
  have hemp := isEmpty_false_of_ne_nil hne
  have hnpos : 0 < data.length := List.length_pos.mpr hne
  rcases Nat.even_or_odd data.length with he | ho
  · obtain ⟨m, hm⟩ := he
    have hm1 : 1 ≤ m := by omega
    have hidx : rankIdx data 50 = ((m - 1 : ℕ) : ℚ) + 1 / 2 := by
      unfold rankIdx
      rw [hm]
      push_cast [Nat.cast_sub hm1]
      ring
    have hhalf : ⌊(1 / 2 : ℚ)⌋ = 0 := by norm_num [Int.floor_eq_zero_iff]
    have hfl : ⌊rankIdx data 50⌋ = ((m - 1 : ℕ) : ℤ) := by
      rw [hidx, show ((m - 1 : ℕ) : ℚ) = (((m - 1 : ℕ) : ℤ) : ℚ) by push_cast; ring,
        Int.floor_int_add, hhalf, add_zero]
    have h0 : (0 : ℚ) ≤ rankIdx data 50 := by rw [hidx]; positivity
    have htr : pyTrunc (rankIdx data 50) = ((m - 1 : ℕ) : ℤ) := by
      rw [pyTrunc_of_nonneg h0, hfl]
    have hnint : rankIdx data 50 ≠ (pyTrunc (rankIdx data 50) : ℚ) := by
      rw [htr, hidx]
      intro hcon
      have : (1 / 2 : ℚ) = 0 := by push_cast at hcon; linarith
      norm_num at this
    rw [percentile_of_not_integral hemp hnint, htr, medianSpec]
    have hmod : ¬ data.length % 2 = 1 := by omega
    rw [if_neg hmod]
    have h1 : data.length / 2 - 1 = m - 1 := by omega
    have h2 : data.length / 2 = m := by omega
    have h3 : (((m - 1 : ℕ) : ℤ)).toNat = m - 1 := by omega
    have h4 : (m - 1) + 1 = m := by omega
    rw [h1, h2, h3, h4, hidx]
    push_cast
    ring
  · obtain ⟨m, hm⟩ := ho
    have hidx : rankIdx data 50 = (m : ℚ) := by
      unfold rankIdx
      rw [hm]
      push_cast
      ring
    have htr : pyTrunc (rankIdx data 50) = (m : ℤ) := by
      rw [hidx]; exact pyTrunc_natCast m
    have hint : rankIdx data 50 = (pyTrunc (rankIdx data 50) : ℚ) := by
      rw [htr, hidx]; push_cast; ring
    rw [percentile_of_integral hemp hint, htr, medianSpec]
    have hmod : data.length % 2 = 1 := by omega
    rw [if_pos hmod]
    have h2 : data.length / 2 = m := by omega
    rw [h2]
    simp

theorem percentile_interpolates {data : List ℚ} {p : ℚ} (hne : data ≠ [])
    (hp : 0 ≤ p) (hnint : rankIdx data p ≠ (⌊rankIdx data p⌋ : ℚ)) :
    percentile data p =
      (data.insertionSort (· ≤ ·)).getD ⌊rankIdx data p⌋.toNat 0 +
        ((data.insertionSort (· ≤ ·)).getD ⌈rankIdx data p⌉.toNat 0 -
          (data.insertionSort (· ≤ ·)).getD ⌊rankIdx data p⌋.toNat 0) *
        (rankIdx data p - (⌊rankIdx data p⌋ : ℚ)) := by
  have hemp := isEmpty_false_of_ne_nil hne
  have hnpos : 0 < data.length := List.length_pos.mpr hne
  have h0 : (0 : ℚ) ≤ rankIdx data p := by
    unfold rankIdx
    apply mul_nonneg (div_nonneg hp (by norm_num))
    have h1 : (1 : ℚ) ≤ (data.length : ℚ) := by exact_mod_cast hnpos
    linarith
  have htr : pyTrunc (rankIdx data p) = ⌊rankIdx data p⌋ := pyTrunc_of_nonneg h0
  have hceil : ⌈rankIdx data p⌉ = ⌊rankIdx data p⌋ + 1 := by
    refine le_antisymm (Int.ceil_le_floor_add_one _) ?_
    have h1 : (⌊rankIdx data p⌋ : ℚ) < rankIdx data p :=
      lt_of_le_of_ne (Int.floor_le _) (fun h => hnint h.symm)
    have h2 : rankIdx data p ≤ (⌈rankIdx data p⌉ : ℚ) := Int.le_ceil _
    have h3 : ⌊rankIdx data p⌋ < ⌈rankIdx data p⌉ := by
      exact_mod_cast lt_of_lt_of_le h1 h2
    omega
  have hfl0 : 0 ≤ ⌊rankIdx data p⌋ := Int.floor_nonneg.mpr h0
  have htn : ⌈rankIdx data p⌉.toNat = ⌊rankIdx data p⌋.toNat + 1 := by
    rw [hceil]; omega
  rw [percentile_of_not_integral hemp (by rw [htr]; exact hnint), htr, htn]

/-- C4: for a non-empty series, `percentile(S, 0)` is the minimum of `S`,
`percentile(S, 100)` is the maximum, and `percentile(S, 50)` is the standard
median (mean of the two middle sorted elements at even length); the empty
series yields `0`, and at a non-integral rank the result interpolates
linearly between the floor- and ceil-indexed sorted elements. -/
theorem percentile_endpoints_median_interp (data : List ℚ) (p : ℚ)
    (hne : data ≠ []) (hp : 0 ≤ p) :
    percentile [] p = 0 ∧
    (percentile data 0 ∈ data ∧ ∀ x ∈ data, percentile data 0 ≤ x) ∧
    (percentile data 100 ∈ data ∧ ∀ x ∈ data, x ≤ percentile data 100) ∧
    percentile data 50 = medianSpec data ∧
    (rankIdx data p ≠ (⌊rankIdx data p⌋ : ℚ) →
      percentile data p =
        (data.insertionSort (· ≤ ·)).getD ⌊rankIdx data p⌋.toNat 0 +
          ((data.insertionSort (· ≤ ·)).getD ⌈rankIdx data p⌉.toNat 0 -
            (data.insertionSort (· ≤ ·)).getD ⌊rankIdx data p⌋.toNat 0) *
          (rankIdx data p - (⌊rankIdx data p⌋ : ℚ))) :=
  ⟨rfl, percentile_zero_min hne, percentile_hundred_max hne,
    percentile_fifty_median hne, fun h => percentile_interpolates hne hp h⟩

unseal Rat.mul Rat.add Rat.sub Rat.inv in
/-- Witness for C4 at the concrete series `[3, 1, 2]` and percentile 95. -/
theorem percentile_endpoints_median_interp_witness :
    (([3, 1, 2] : List ℚ) ≠ [] ∧ (0 : ℚ) ≤ 95) ∧
    (percentile [] 95 = 0 ∧
      (percentile [3, 1, 2] 0 ∈ ([3, 1, 2] : List ℚ) ∧
        ∀ x ∈ ([3, 1, 2] : List ℚ), percentile [3, 1, 2] 0 ≤ x) ∧
      (percentile [3, 1, 2] 100 ∈ ([3, 1, 2] : List ℚ) ∧
        ∀ x ∈ ([3, 1, 2] : List ℚ), x ≤ percentile [3, 1, 2] 100) ∧
      percentile [3, 1, 2] 50 = medianSpec [3, 1, 2] ∧
      (rankIdx [3, 1, 2] 95 ≠ (⌊rankIdx [3, 1, 2] 95⌋ : ℚ) →
        percentile [3, 1, 2] 95 =
          (List.insertionSort (· ≤ ·) [3, 1, 2]).getD ⌊rankIdx [3, 1, 2] 95⌋.toNat 0 +
            ((List.insertionSort (· ≤ ·) [3, 1, 2]).getD ⌈rankIdx [3, 1, 2] 95⌉.toNat 0 -
              (List.insertionSort (· ≤ ·) [3, 1, 2]).getD ⌊rankIdx [3, 1, 2] 95⌋.toNat 0) *
            (rankIdx [3, 1, 2] 95 - (⌊rankIdx [3, 1, 2] 95⌋ : ℚ)))) :=
  ⟨⟨by decide, by decide⟩,
    percentile_endpoints_median_interp [3, 1, 2] 95 (by decide) (by decide)⟩

theorem foldl_min_replicate (k : ℕ) (v : ℚ) :
    (List.replicate k v).foldl min v = v := by
  induction k with
  | zero => rfl
  | succ k ih => rw [List.replicate_succ, List.foldl_cons, min_self]; exact ih

theorem foldl_max_replicate (k : ℕ) (v : ℚ) :
    (List.replicate k v).foldl max v = v := by
  induction k with
  | zero => rfl
  | succ k ih => rw [List.replicate_succ, List.foldl_cons, max_self]; exact ih

theorem pyMin_replicate {n : ℕ} (hn : 1 ≤ n) (v : ℚ) :
    pyMin (List.replicate n v) = v := by
  obtain ⟨k, rfl⟩ : ∃ k, n = k + 1 := ⟨n - 1, by omega⟩
  rw [List.replicate_succ]
  exact foldl_min_replicate k v

theorem pyMax_replicate {n : ℕ} (hn : 1 ≤ n) (v : ℚ) :
    pyMax (List.replicate n v) = v := by
  obtain ⟨k, rfl⟩ : ∃ k, n = k + 1 := ⟨n - 1, by omega⟩
  rw [List.replicate_succ]
  exact foldl_max_replicate k v

theorem sampleMean_replicate {n : ℕ} (hn : 1 ≤ n) (v : ℚ) :
    sampleMean (List.replicate n v) = v := by
  have hn0 : ((n : ℚ)) ≠ 0 := Nat.cast_ne_zero.mpr (by omega)
  unfold sampleMean
  rw [List.sum_replicate, List.length_replicate, nsmul_eq_mul, mul_comm,
    mul_div_assoc, div_self hn0, mul_one]

theorem sampleVarQ_replicate (n : ℕ) (v : ℚ) :
    sampleVarQ (List.replicate n v) = 0 := by
  unfold sampleVarQ
  cases n with
  | zero => simp
  | succ k =>
    rw [sampleMean_replicate (by omega), List.map_replicate]
    simp

theorem insertionSort_replicate (n : ℕ) (v : ℚ) :
    (List.replicate n v).insertionSort (· ≤ ·) = List.replicate n v := by
  have hperm : List.Perm ((List.replicate n v).insertionSort (· ≤ ·))
      (List.replicate n v) := List.perm_insertionSort _ _
  have hlen : ((List.replicate n v).insertionSort (· ≤ ·)).length = n := by
    rw [List.length_insertionSort, List.length_replicate]
  have h2 : (List.replicate n v).insertionSort (· ≤ ·) =
      List.replicate ((List.replicate n v).insertionSort (· ≤ ·)).length v :=
    List.eq_replicate_length.mpr
      fun b hb => List.eq_of_mem_replicate (hperm.subset hb)
  rw [h2, hlen]

theorem getD_replicate_of_lt {n i : ℕ} (h : i < n) (v : ℚ) :
    (List.replicate n v).getD i 0 = v := by
  rw [List.getD_eq_getElem _ 0 (by simpa using h)]
  simp

theorem medianSpec_replicate {n : ℕ} (hn : 1 ≤ n) (v : ℚ) :
    medianSpec (List.replicate n v) = v := by
  simp only [medianSpec, insertionSort_replicate, List.length_replicate]
  by_cases hp : n % 2 = 1
  · rw [if_pos hp, getD_replicate_of_lt (by omega)]
  · rw [if_neg hp, getD_replicate_of_lt (by omega), getD_replicate_of_lt (by omega)]
    ring

theorem pyTrunc_mul_frac_lt {n : ℕ} (hn : 0 < n) {c : ℚ} (hc0 : 0 ≤ c)
    (hc1 : c < 1) : (pyTrunc ((n : ℚ) * c)).toNat < n := by
  have h0 : (0 : ℚ) ≤ (n : ℚ) * c := by positivity
  rw [pyTrunc_of_nonneg h0]
  have hnq : (0 : ℚ) < (n : ℚ) := by exact_mod_cast hn
  have hflt : ⌊(n : ℚ) * c⌋ < (n : ℤ) := by
    apply Int.floor_lt.mpr
    push_cast
    calc (n : ℚ) * c < (n : ℚ) * 1 := by
          exact mul_lt_mul_of_pos_left hc1 hnq
    _ = (n : ℚ) := mul_one _
  have hfl0 : 0 ≤ ⌊(n : ℚ) * c⌋ := Int.floor_nonneg.mpr h0
  omega

unseal Rat.mul Rat.add Rat.sub Rat.inv in
/-- C5 counterexample: the claim says `describe` returns `stdev = 0` (along
with count/min/max/mean/median and percentile fields) when `n < 2`, but
`calculate_statistics([5])` returns the empty dictionary — no fields at
all. -/
theorem calculate_statistics_singleton_empty :
    calculate_statistics [5] = none := by decide

/-- C5 (amended): `describe` returns NO statistics (an empty dictionary) for
series with fewer than 2 values; for `n ≥ 2` it returns a dictionary whose
count is the length, whose stdev is the sample standard deviation (squared
radicand `Σ(x-mean)²/(n-1)`), and whose p95/p99 fall back to the maximum at
or below the sample-size thresholds 20 resp. 100; for a series of one
repeated value `v` (with `n ≥ 2`) all location fields and both percentile
fields equal `v` and the stdev is 0. -/
theorem calculate_statistics_spec (values w : List ℚ) (n : ℕ) (v : ℚ)
    (hw : w.length < 2) (hn : 2 ≤ values.length) (hcn : 2 ≤ n) :
    calculate_statistics w = none ∧
    (∃ s, calculate_statistics values = some s ∧
      s.count = values.length ∧
      s.stdevSq = sampleVarQ values ∧
      (values.length ≤ 20 → s.p95 = pyMax values) ∧
      (values.length ≤ 100 → s.p99 = pyMax values)) ∧
    calculate_statistics (List.replicate n v) =
      some { count := n, min := v, max := v, mean := v, median := v,
             stdevSq := 0, p95 := v, p99 := v } := by
  refine ⟨by rw [calculate_statistics, if_pos hw], ?_, ?_⟩
  · rw [calculate_statistics, if_neg (by omega)]
    refine ⟨_, rfl, rfl, rfl, fun h20 => ?_, fun h100 => ?_⟩
    · show (if 20 < values.length then _ else pyMax values) = pyMax values
      rw [if_neg (by omega)]
    · show (if 100 < values.length then _ else pyMax values) = pyMax values
      rw [if_neg (by omega)]
  · have h1n : 1 ≤ n := by omega
    have hp95 : (if 20 < (List.replicate n v).length then
        ((List.replicate n v).insertionSort (· ≤ ·)).getD
          (pyTrunc (((List.replicate n v).length : ℚ) * (95 / 100))).toNat 0
      else pyMax (List.replicate n v)) = v := by
      rw [List.length_replicate]
      by_cases h20 : 20 < n
      · rw [if_pos h20, insertionSort_replicate]
        exact getD_replicate_of_lt
          (pyTrunc_mul_frac_lt (by omega) (by norm_num) (by norm_num)) v
      · rw [if_neg h20, pyMax_replicate h1n]
    have hp99 : (if 100 < (List.replicate n v).length then
        ((List.replicate n v).insertionSort (· ≤ ·)).getD
          (pyTrunc (((List.replicate n v).length : ℚ) * (99 / 100))).toNat 0
      else pyMax (List.replicate n v)) = v := by
      rw [List.length_replicate]
      by_cases h100 : 100 < n
      · rw [if_pos h100, insertionSort_replicate]
        exact getD_replicate_of_lt
          (pyTrunc_mul_frac_lt (by omega) (by norm_num) (by norm_num)) v
      · rw [if_neg h100, pyMax_replicate h1n]
    rw [calculate_statistics, if_neg (by rw [List.length_replicate]; omega)]
    rw [Option.some.injEq]
    refine SoakStats.mk.injEq _ _ _ _ _ _ _ _ _ _ _ _ _ _ _ _ |>.mpr ?_
    exact ⟨List.length_replicate n v, pyMin_replicate h1n v, pyMax_replicate h1n v,
      sampleMean_replicate h1n v, medianSpec_replicate h1n v,
      sampleVarQ_replicate n v, hp95, hp99⟩

unseal Rat.mul Rat.add Rat.sub Rat.inv in
/-- Witness for C5 (amended) at `values = [4, 4]`, `w = [9]`,
constant series `replicate 3 7`. -/
theorem calculate_statistics_spec_witness :
    (([9] : List ℚ).length < 2 ∧ 2 ≤ ([4, 4] : List ℚ).length ∧ 2 ≤ 3) ∧
    (calculate_statistics [9] = none ∧
      (∃ s, calculate_statistics [4, 4] = some s ∧
        s.count = ([4, 4] : List ℚ).length ∧
        s.stdevSq = sampleVarQ [4, 4] ∧
        (([4, 4] : List ℚ).length ≤ 20 → s.p95 = pyMax [4, 4]) ∧
        (([4, 4] : List ℚ).length ≤ 100 → s.p99 = pyMax [4, 4])) ∧
      calculate_statistics (List.replicate 3 7) =
        some { count := 3, min := 7, max := 7, mean := 7, median := 7,
               stdevSq := 0, p95 := 7, p99 := 7 }) :=
  ⟨⟨by decide, by decide, by decide⟩,
    calculate_statistics_spec [4, 4] [9] 3 7 (by decide) (by decide) (by decide)⟩

unseal Rat.mul Rat.add Rat.sub Rat.inv in
/-- C6 counterexample: on nine 0s and one 10 with threshold 2.9 the code
(whose `statistics.stdev` is the SAMPLE deviation, here √10) flags nothing,
while the population-deviation rule the claim describes (stdev 3, z-score
exactly 3 > 2.9 at index 9) flags index 9. -/
theorem detect_anomalies_sample_ne_population :
    detect_anomalies [0, 0, 0, 0, 0, 0, 0, 0, 0, 10] (29 / 10) = [] ∧
    detectAnomaliesPopulationSpec [0, 0, 0, 0, 0, 0, 0, 0, 0, 10] (29 / 10) = [9] := by
  exact ⟨by decide, by decide⟩

/-- C6 (amended): `detect_anomalies` returns the empty list for every series
with fewer than 10 samples; for `n ≥ 10` it returns exactly the indices whose
`|value - mean| / stdev` exceeds the threshold where `stdev` is the SAMPLE
standard deviation (`statistics.stdev`, divide by `n - 1`), with the z-score
taken as 0 when the deviation is 0 — so for any non-negative threshold a
constant series is never flagged. -/
theorem detect_anomalies_spec (values : List ℚ) (t : ℚ) (n : ℕ) (v : ℚ)
    (ht : 0 ≤ t) :
    (values.length < 10 → detect_anomalies values t = []) ∧
    (∀ i, i ∈ detect_anomalies values t ↔
      10 ≤ values.length ∧ i < values.length ∧
        zThresholdExceeded (sampleMean values) (sampleVarQ values) t
          (values.getD i 0) = true) ∧
    detect_anomalies (List.replicate n v) t = [] := by
  refine ⟨fun h => by rw [detect_anomalies, if_pos h], ?_, ?_⟩
  · intro i
    by_cases h : values.length < 10
    · rw [detect_anomalies, if_pos h]
      simp only [List.not_mem_nil, false_iff]
      rintro ⟨h10, -, -⟩
      omega
    · rw [detect_anomalies, if_neg h]
      rw [List.mem_filter, List.mem_range]
      constructor
      · rintro ⟨h1, h2⟩
        exact ⟨by omega, h1, h2⟩
      · rintro ⟨-, h1, h2⟩
        exact ⟨h1, h2⟩
  · by_cases h : n < 10
    · rw [detect_anomalies, if_pos (by rw [List.length_replicate]; omega)]
    · rw [detect_anomalies, if_neg (by rw [List.length_replicate]; omega)]
      refine List.filter_eq_nil_iff.mpr fun i _ => ?_
      rw [sampleVarQ_replicate]
      simp only [zThresholdExceeded, lt_irrefl, if_false, Bool.not_eq_true,
        decide_eq_false_iff_not, not_lt]
      exact ht

unseal Rat.mul Rat.add Rat.sub Rat.inv in
/-- Witness for C6 (amended) at `values = [1, 2, 3]`, threshold 3,
constant series `replicate 12 5`. -/
theorem detect_anomalies_spec_witness :
    (0 : ℚ) ≤ 3 ∧
    ((([1, 2, 3] : List ℚ).length < 10 → detect_anomalies [1, 2, 3] 3 = []) ∧
      (∀ i, i ∈ detect_anomalies [1, 2, 3] 3 ↔
        10 ≤ ([1, 2, 3] : List ℚ).length ∧ i < ([1, 2, 3] : List ℚ).length ∧
          zThresholdExceeded (sampleMean [1, 2, 3]) (sampleVarQ [1, 2, 3]) 3
            (List.getD [1, 2, 3] i 0) = true) ∧
      detect_anomalies (List.replicate 12 5) 3 = []) :=
  ⟨by decide, detect_anomalies_spec [1, 2, 3] 3 12 5 (by decide)⟩

theorem mem_firstKeys {x : String} : ∀ {L : List String}, x ∈ firstKeys L ↔ x ∈ L
  | [] => by simp [firstKeys]
  | a :: t => by
    simp only [firstKeys, List.mem_cons, List.mem_filter, bne_iff_ne]
    by_cases hxa : x = a
    · simp [hxa]
    · simp only [hxa, false_or]
      rw [show (x ∈ firstKeys t ∧ x ≠ a) ↔ x ∈ firstKeys t from
        and_iff_left hxa, mem_firstKeys]

theorem nodup_firstKeys : ∀ (L : List String), (firstKeys L).Nodup
  | [] => List.nodup_nil
  | a :: t => by
    rw [firstKeys, List.nodup_cons]
    constructor
    · intro hmem
      have := (List.mem_filter.mp hmem).2
      simp at this
    · exact (nodup_firstKeys t).filter _

/-- Splitting a sum over a duplicate-free key list at one key. -/
theorem sum_map_split_key (g : String → ℕ) (a : String) :
    ∀ (K : List String), K.Nodup →
      (K.map g).sum =
        (if a ∈ K then g a else 0) +
          ((K.filter (fun x => x != a)).map g).sum
  | [], _ => by simp
  | b :: K, hnd => by
    obtain ⟨hbK, hK⟩ := List.nodup_cons.mp hnd
    by_cases hba : b = a
    · subst hba
      have hfilter : K.filter (fun x => x != b) = K :=
        List.filter_eq_self.mpr fun x hx => by
          simp only [bne_iff_ne]
          exact fun hxb => hbK (hxb ▸ hx)
      simp [hfilter]
    · have hmem : a ∈ b :: K ↔ a ∈ K := by
        simp only [List.mem_cons]
        exact or_iff_right fun h => hba h.symm
      have ih := sum_map_split_key g a K hK
      have hfilter : (b :: K).filter (fun x => x != a) =
          b :: K.filter (fun x => x != a) := by
        rw [List.filter_cons_of_pos]
        simp [hba]
      rw [hfilter, List.map_cons, List.sum_cons, List.map_cons, List.sum_cons]
      by_cases haK : a ∈ K
      · rw [if_pos (hmem.mpr haK)]
        rw [if_pos haK] at ih
        omega
      · rw [if_neg (fun h => haK (hmem.mp h))]
        rw [if_neg haK] at ih
        omega

/-- Grouping a list of keys by first occurrence and summing the per-key
multiplicities recovers the length: the Python `by_test` groups partition the
result list. -/
theorem sum_countP_firstKeys : ∀ (L : List String),
    ((firstKeys L).map fun t => L.countP (fun x => x == t)).sum = L.length
  | [] => rfl
  | a :: L => by
    rw [firstKeys, List.map_cons, List.sum_cons,
      List.countP_cons_of_pos _ _ (by simp)]
    have hcongr : ((firstKeys L).filter (fun x => x != a)).map
          (fun t => (a :: L).countP (fun x => x == t)) =
        ((firstKeys L).filter (fun x => x != a)).map
          (fun t => L.countP (fun x => x == t)) := by
      apply List.map_congr_left
      intro t ht
      have hta : t ≠ a := by
        have := (List.mem_filter.mp ht).2
        simpa using this
      exact List.countP_cons_of_neg _ _ (by simpa using fun h => hta h.symm)
    rw [hcongr]
    have hsplit := sum_map_split_key (fun t => L.countP (fun x => x == t)) a
      (firstKeys L) (nodup_firstKeys L)
    have hih := sum_countP_firstKeys L
    rw [List.length_cons]
    by_cases haL : a ∈ L
    · rw [if_pos (mem_firstKeys.mpr haL)] at hsplit
      rw [hsplit] at hih
      beta_reduce at hih
      omega
    · have hcount : L.countP (fun x => x == a) = 0 := by
        rw [List.countP_eq_zero]
        intro x hx
        simp only [beq_iff_eq]
        intro h
        exact haL (h ▸ hx)
      rw [if_neg (fun h => haL (mem_firstKeys.mp h))] at hsplit
      rw [hsplit] at hih
      omega

theorem performance_breakdown_sums (results : List TestResult) :
    (((calculate_performance_summary results).test_breakdown.map
        (fun e => e.2.total)).sum) = results.length := by
  simp only [calculate_performance_summary, List.map_map, Function.comp]
  have hcongr : ∀ t, (results.filter (fun r => r.test_name == t)).length
      = (results.map fun r => r.test_name).countP (fun x => x == t) := by
    intro t
    rw [List.countP_map]
    rw [← List.countP_eq_length_filter]
    apply List.countP_congr
    intro r _
    simp [Function.comp]
  trans ((firstKeys (results.map fun r => r.test_name)).map
      (fun t => (results.map fun r => r.test_name).countP (fun x => x == t))).sum
  · congr 1
    apply List.map_congr_left
    intro t ht
    exact hcongr t
  · rw [sum_countP_firstKeys, List.length_map]

theorem performance_breakdown_entries (results : List TestResult) :
    ((calculate_performance_summary results).test_breakdown.all
      (fun e => e.2.passed + e.2.failed == e.2.total)) = true := by
  rw [List.all_eq_true]
  intro e he
  simp only [calculate_performance_summary] at he
  obtain ⟨t, ht, rfl⟩ := List.mem_map.mp he
  simp only [beq_iff_eq]
  have hle := List.length_filter_le (fun r => r.success)
    (results.filter (fun r => r.test_name == t))
  omega

/-- C1: every suite the orchestrator assembles satisfies
`summary.total_tests = len(results)`; for performance suites the per-scenario
breakdown totals sum to the suite total and each breakdown entry satisfies
`passed + failed = total`. -/
theorem suite_summary_invariant (nodes : ℕ) (results : List TestResult) :
    (mkPerformanceSuite nodes results).summary.totalTests =
      (mkPerformanceSuite nodes results).results.length ∧
    (((calculate_performance_summary results).test_breakdown.map
        (fun e => e.2.total)).sum) =
      (calculate_performance_summary results).total_tests ∧
    ((calculate_performance_summary results).test_breakdown.all
      (fun e => e.2.passed + e.2.failed == e.2.total)) = true ∧
    ∀ (byz lead part : ℕ → TestResult) (suite : TestSuite),
      run_distributed_consensus_tests nodes byz lead part = Except.ok suite →
        suite.summary.totalTests = suite.results.length := by
  refine ⟨rfl, ?_, performance_breakdown_entries results, ?_⟩
  · rw [performance_breakdown_sums]; rfl
  · intro byz lead part suite hrun
    rw [run_distributed_consensus_tests] at hrun
    by_cases h4 : nodes < 4
    · rw [if_pos h4] at hrun
      exact absurd hrun (by simp)
    · rw [if_neg h4] at hrun
      obtain rfl := (Except.ok.inj hrun)
      rfl

unseal Rat.mul Rat.add Rat.sub Rat.inv in
/-- Witness for C1: the three-result performance summary and the 5-node
distributed suite built from the concrete simulated scenario steps. -/
theorem suite_summary_invariant_witness :
    (run_distributed_consensus_tests 5 byzantine_consensus_test
        leader_election_test partition_recovery_test = Except.ok demoDistSuite) ∧
    (mkPerformanceSuite 4 demoResults).summary.totalTests =
      (mkPerformanceSuite 4 demoResults).results.length ∧
    demoDistSuite.summary.totalTests = demoDistSuite.results.length :=
  ⟨rfl, (suite_summary_invariant 4 demoResults).1,
    (suite_summary_invariant 5 demoResults).2.2.2 byzantine_consensus_test
      leader_election_test partition_recovery_test demoDistSuite rfl⟩

/-- C2: with exactly one of N node tasks raising (node k, message e) and the
rest returning their own results, the gathered group has exactly N results,
slot k is the converted failure carrying `success=false` and the exception
text, every other slot is the sibling task's own unchanged result, and (when
the siblings pass on their own metrics) exactly one result in the group
failed — the exception never removes or aborts sibling results. -/
theorem node_failure_isolated (nodes k : ℕ) (e : String)
    (task : ℕ → Except String TestResult) (okv : ℕ → TestResult)
    (hk1 : 1 ≤ k) (hk2 : k ≤ nodes)
    (hke : task k = Except.error e)
    (hok : ∀ j, 1 ≤ j → j ≤ nodes → j ≠ k → task j = Except.ok (okv j)) :
    (run_ai_inference_tests nodes task).length = nodes ∧
    run_ai_inference_tests nodes task =
      (List.range' 1 nodes).map
        (fun j => if j = k then failedInferenceResult k e else okv j) ∧
    (failedInferenceResult k e).success = false ∧
    (failedInferenceResult k e).error_message = some e ∧
    ((∀ j, 1 ≤ j → j ≤ nodes → j ≠ k → (okv j).success = true) →
      ((run_ai_inference_tests nodes task).filter
        (fun r => !r.success)).length = 1) := by
  have hmap : run_ai_inference_tests nodes task =
      (List.range' 1 nodes).map
        (fun j => if j = k then failedInferenceResult k e else okv j) := by
    unfold run_ai_inference_tests
    apply List.map_congr_left
    intro j hj
    obtain ⟨hj1, hj2⟩ := List.mem_range'_1.mp hj
    by_cases hjk : j = k
    · subst hjk
      rw [hke]
      simp
    · rw [hok j hj1 (by omega) hjk, if_neg hjk]
  refine ⟨?_, hmap, rfl, rfl, ?_⟩
  · rw [hmap, List.length_map, List.length_range']
  · intro hall
    rw [hmap, ← List.countP_eq_length_filter, List.countP_map]
    have hcongr : List.countP ((fun r => !r.success) ∘ fun j =>
        if j = k then failedInferenceResult k e else okv j)
          (List.range' 1 nodes) =
        List.countP (fun j => j == k) (List.range' 1 nodes) := by
      apply List.countP_congr
      intro j hj
      obtain ⟨hj1, hj2⟩ := List.mem_range'_1.mp hj
      by_cases hjk : j = k
      · subst hjk
        simp [failedInferenceResult]
      · simp [Function.comp, hjk, hall j hj1 (by omega) hjk]
    rw [hcongr]
    have hcnt : List.countP (fun j => j == k) (List.range' 1 nodes) =
        (List.range' 1 nodes).count k := by
      simp [List.count]
    rw [hcnt]
    exact List.count_eq_one_of_mem (List.nodup_range' 1 nodes 1 (by norm_num))
      (List.mem_range'_1.mpr ⟨hk1, by omega⟩)

/-- Witness for C2: three nodes, node 2 raises "boom", nodes 1 and 3
succeed. -/
theorem node_failure_isolated_witness :
    ((1 : ℕ) ≤ 2 ∧ 2 ≤ 3 ∧ demoTask 2 = Except.error "boom") ∧
    ((run_ai_inference_tests 3 demoTask).length = 3 ∧
      run_ai_inference_tests 3 demoTask =
        (List.range' 1 3).map
          (fun j => if j = 2 then failedInferenceResult 2 "boom" else demoOk j) ∧
      (failedInferenceResult 2 "boom").success = false ∧
      (failedInferenceResult 2 "boom").error_message = some "boom" ∧
      ((∀ j, 1 ≤ j → j ≤ 3 → j ≠ 2 → (demoOk j).success = true) →
        ((run_ai_inference_tests 3 demoTask).filter
          (fun r => !r.success)).length = 1)) :=
  ⟨⟨by decide, by decide, rfl⟩,
    node_failure_isolated 3 2 "boom" demoTask demoOk (by decide) (by decide) rfl
      (fun j h1 h2 h3 => by
        have hj : j = 1 ∨ j = 3 := by omega
        rcases hj with rfl | rfl <;> rfl)⟩

/-- C3: requesting the distributed-consensus suite with fewer than 4 nodes
yields the precondition violation; the outcome is independent of the
scenario steps (no scenario executes) and no suite is ever produced. -/
theorem distributed_consensus_precondition (nodes : ℕ)
    (byz lead part byz2 lead2 part2 : ℕ → TestResult) (h : nodes < 4) :
    run_distributed_consensus_tests nodes byz lead part =
      Except.error
        ("Distributed consensus requires at least 4 nodes, got " ++
          toString nodes) ∧
    run_distributed_consensus_tests nodes byz lead part =
      run_distributed_consensus_tests nodes byz2 lead2 part2 ∧
    ∀ suite, run_distributed_consensus_tests nodes byz lead part ≠
      Except.ok suite := by
  unfold run_distributed_consensus_tests
  rw [if_pos h]
  exact ⟨rfl, by rw [if_pos h], fun suite hc => by simp at hc⟩

/-- Witness for C3 at 3 nodes with the concrete simulated scenario steps
(and an unrelated second triple, showing the steps are never consulted). -/
theorem distributed_consensus_precondition_witness :
    3 < 4 ∧
    (run_distributed_consensus_tests 3 byzantine_consensus_test
        leader_election_test partition_recovery_test =
      Except.error
        ("Distributed consensus requires at least 4 nodes, got " ++
          toString 3) ∧
    run_distributed_consensus_tests 3 byzantine_consensus_test
        leader_election_test partition_recovery_test =
      run_distributed_consensus_tests 3 partition_recovery_test
        byzantine_consensus_test leader_election_test ∧
    ∀ suite, run_distributed_consensus_tests 3 byzantine_consensus_test
        leader_election_test partition_recovery_test ≠ Except.ok suite) :=
  ⟨by decide,
    distributed_consensus_precondition 3 byzantine_consensus_test
      leader_election_test partition_recovery_test partition_recovery_test
      byzantine_consensus_test leader_election_test (by decide)⟩

/-- C7: a document with an empty `validation_results` list (or with the
`summary`, `coverage`, or `validation_results` section missing) always
receives a data-integrity hard error, whatever the other sections contain,
and therefore can never produce a passing verdict in either mode. -/
theorem gate_data_integrity_hard_error (pf : String → Option ℚ)
    (doc : ResultsDoc) (strict : Bool)
    (h : doc.entries = [] ∨ doc.summary = none ∨ doc.coverage = none ∨
      doc.validation_results = none) :
    (Finding.noValidationResults ∈ (run_validation pf doc).2.1 ∨
      ∃ sections, Finding.missingSections sections ∈ (run_validation pf doc).2.1) ∧
    (run_validation pf doc).1 = false ∧
    (gate_main strict pf doc).1 = false := by
  have hdi : Finding.noValidationResults ∈ (validate_data_integrity doc).1 ∨
      ∃ sections,
        Finding.missingSections sections ∈ (validate_data_integrity doc).1 := by
    rcases h with h | h | h | h
    · left
      simp only [validate_data_integrity]
      exact List.mem_append_right _
        (by rw [if_pos (by rw [h]; rfl)]; exact List.mem_singleton_self _)
    · right
      simp only [validate_data_integrity]
      exact ⟨_, List.mem_append_left _
        (by rw [if_pos (by simp [h])]; exact List.mem_singleton_self _)⟩
    · right
      simp only [validate_data_integrity]
      exact ⟨_, List.mem_append_left _
        (by rw [if_pos (by simp [h])]; exact List.mem_singleton_self _)⟩
    · right
      simp only [validate_data_integrity]
      exact ⟨_, List.mem_append_left _
        (by rw [if_pos (by simp [h])]; exact List.mem_singleton_self _)⟩
  have hmem : ∀ f, f ∈ (validate_data_integrity doc).1 →
      f ∈ (run_validation pf doc).2.1 := by
    intro f hf
    simp only [run_validation, List.mem_append]
    exact Or.inl (Or.inl (Or.inl (Or.inl (Or.inl (Or.inl hf)))))
  have hne : (run_validation pf doc).2.1 ≠ [] := by
    rcases hdi with hm | ⟨sections, hm⟩ <;>
      exact List.ne_nil_of_mem (hmem _ hm)
  have hsucc : (run_validation pf doc).1 = false := by
    show ((run_validation pf doc).2.1).isEmpty = false
    cases hl : (run_validation pf doc).2.1 with
    | nil => exact absurd hl hne
    | cons a t => rfl
  refine ⟨?_, hsucc, ?_⟩
  · rcases hdi with hm | ⟨sections, hm⟩
    · exact Or.inl (hmem _ hm)
    · exact Or.inr ⟨sections, hmem _ hm⟩
  · simp only [gate_main]
    by_cases hc : (strict && !(run_validation pf doc).2.2.isEmpty) = true
    · rw [if_pos hc]
    · rw [if_neg hc]
      exact hsucc

unseal Rat.mul Rat.add Rat.sub Rat.inv in
/-- Witness for C7: a document whose sections are all present and healthy
but whose result list is empty, in non-strict mode. -/
theorem gate_data_integrity_hard_error_witness :
    (demoEmptyResultsDoc.entries = [] ∨ demoEmptyResultsDoc.summary = none ∨
      demoEmptyResultsDoc.coverage = none ∨
      demoEmptyResultsDoc.validation_results = none) ∧
    ((Finding.noValidationResults ∈
        (run_validation (fun _ => none) demoEmptyResultsDoc).2.1 ∨
      ∃ sections, Finding.missingSections sections ∈
        (run_validation (fun _ => none) demoEmptyResultsDoc).2.1) ∧
    (run_validation (fun _ => none) demoEmptyResultsDoc).1 = false ∧
    (gate_main false (fun _ => none) demoEmptyResultsDoc).1 = false) :=
  ⟨Or.inl (by decide),
    gate_data_integrity_hard_error (fun _ => none) demoEmptyResultsDoc false
      (Or.inl (by decide))⟩

/-- C8: the verdict always satisfies `success = errors.isEmpty` (after the
strict-mode promotion), and a document with zero hard errors and at least
one warning fails in strict mode and passes in non-strict mode. -/
theorem gate_success_iff_no_errors (pf : String → Option ℚ)
    (doc : ResultsDoc)
    (herr : (run_validation pf doc).2.1 = [])
    (hwarn : (run_validation pf doc).2.2 ≠ []) :
    (∀ (strict2 : Bool) (pf2 : String → Option ℚ) (doc2 : ResultsDoc),
      (gate_main strict2 pf2 doc2).1 =
        (gate_main strict2 pf2 doc2).2.1.isEmpty) ∧
    (gate_main true pf doc).1 = false ∧
    (gate_main false pf doc).1 = true := by
  refine ⟨?_, ?_, ?_⟩
  · intro strict2 pf2 doc2
    simp only [gate_main]
    by_cases hc : (strict2 && !(run_validation pf2 doc2).2.2.isEmpty) = true
    · rw [if_pos hc]
      have hw : (run_validation pf2 doc2).2.2 ≠ [] := by
        intro hnil
        rw [hnil] at hc
        simp at hc
      cases hl : (run_validation pf2 doc2).2.2 with
      | nil => exact absurd hl hw
      | cons a t => simp
    · rw [if_neg hc]
      rfl
  · simp only [gate_main]
    have hc : (true && !(run_validation pf doc).2.2.isEmpty) = true := by
      cases hl : (run_validation pf doc).2.2 with
      | nil => exact absurd hl hwarn
      | cons a t => rfl
    rw [if_pos hc]
  · simp only [gate_main]
    rw [if_neg (by simp)]
    show ((run_validation pf doc).2.1).isEmpty = true
    rw [herr]
    rfl

unseal Rat.mul Rat.add Rat.sub Rat.inv in
/-- Witness for C8: the document with performance coverage 30% — zero
errors, one advisory. -/
theorem gate_success_iff_no_errors_witness :
    ((run_validation (fun _ => none) demoWarnDoc).2.1 = [] ∧
      (run_validation (fun _ => none) demoWarnDoc).2.2 ≠ []) ∧
    ((∀ (strict2 : Bool) (pf2 : String → Option ℚ) (doc2 : ResultsDoc),
        (gate_main strict2 pf2 doc2).1 =
          (gate_main strict2 pf2 doc2).2.1.isEmpty) ∧
      (gate_main true (fun _ => none) demoWarnDoc).1 = false ∧
      (gate_main false (fun _ => none) demoWarnDoc).1 = true) :=
  ⟨⟨by decide, by decide⟩,
    gate_success_iff_no_errors (fun _ => none) demoWarnDoc (by decide)
      (by decide)⟩

/-- C9: with at least 2 historical runs of which at least 3 carry a memory
section, an advisory for a tracked metric (OOM events, peak pressure) is
emitted exactly when the metric is present and takes a single distinct value
across those sections; concretely, oom_events [2,2,2] yields the advisory
and [2,3,2] yields none. -/
theorem variability_constant_metric_advisory (historical : List HistoricalRun)
    (h2 : 2 ≤ historical.length)
    (h3 : 3 ≤ (historical.filterMap fun r => r.memory).length) :
    ((∃ n, StressFinding.noVariabilityOom n ∈ validate_variability historical) ↔
      (((historical.filterMap fun r => r.memory).filterMap
          fun m => m.oom_events) ≠ [] ∧
        ((historical.filterMap fun r => r.memory).filterMap
          fun m => m.oom_events).dedup.length = 1)) ∧
    ((∃ n, StressFinding.noVariabilityPeak n ∈ validate_variability historical) ↔
      (((historical.filterMap fun r => r.memory).filterMap
          fun m => m.peak_pressure) ≠ [] ∧
        ((historical.filterMap fun r => r.memory).filterMap
          fun m => m.peak_pressure).dedup.length = 1)) ∧
    validate_variability [mkOomRun 2, mkOomRun 2, mkOomRun 2] =
      [StressFinding.noVariabilityOom 3] ∧
    validate_variability [mkOomRun 2, mkOomRun 3, mkOomRun 2] = [] := by
  have hrw : validate_variability historical =
      (if ((historical.filterMap fun r => r.memory).filterMap
            fun m => m.peak_pressure) ≠ [] ∧
          ((historical.filterMap fun r => r.memory).filterMap
            fun m => m.peak_pressure).dedup.length = 1 then
        [StressFinding.noVariabilityPeak
          ((historical.filterMap fun r => r.memory).filterMap
            fun m => m.peak_pressure).length]
      else []) ++
      (if ((historical.filterMap fun r => r.memory).filterMap
            fun m => m.oom_events) ≠ [] ∧
          ((historical.filterMap fun r => r.memory).filterMap
            fun m => m.oom_events).dedup.length = 1 then
        [StressFinding.noVariabilityOom
          ((historical.filterMap fun r => r.memory).filterMap
            fun m => m.oom_events).length]
      else []) := by
    simp only [validate_variability]
    rw [if_neg (by omega), if_pos h3]
  refine ⟨?_, ?_, by decide, by decide⟩
  · rw [hrw]
    by_cases hO : ((historical.filterMap fun r => r.memory).filterMap
          fun m => m.oom_events) ≠ [] ∧
        ((historical.filterMap fun r => r.memory).filterMap
          fun m => m.oom_events).dedup.length = 1
    · rw [if_pos hO]
      exact ⟨fun _ => hO,
        fun _ => ⟨_, List.mem_append_right _ (List.mem_singleton_self _)⟩⟩
    · rw [if_neg hO]
      rw [List.append_nil]
      constructor
      · rintro ⟨n, hn⟩
        by_cases hP : ((historical.filterMap fun r => r.memory).filterMap
              fun m => m.peak_pressure) ≠ [] ∧
            ((historical.filterMap fun r => r.memory).filterMap
              fun m => m.peak_pressure).dedup.length = 1
        · rw [if_pos hP] at hn
          simp at hn
        · rw [if_neg hP] at hn
          simp at hn
      · intro hc
        exact absurd hc hO
  · rw [hrw]
    by_cases hP : ((historical.filterMap fun r => r.memory).filterMap
          fun m => m.peak_pressure) ≠ [] ∧
        ((historical.filterMap fun r => r.memory).filterMap
          fun m => m.peak_pressure).dedup.length = 1
    · rw [if_pos hP]
      exact ⟨fun _ => hP,
        fun _ => ⟨_, List.mem_append_left _ (List.mem_singleton_self _)⟩⟩
    · rw [if_neg hP]
      rw [List.nil_append]
      constructor
      · rintro ⟨n, hn⟩
        by_cases hO : ((historical.filterMap fun r => r.memory).filterMap
              fun m => m.oom_events) ≠ [] ∧
            ((historical.filterMap fun r => r.memory).filterMap
              fun m => m.oom_events).dedup.length = 1
        · rw [if_pos hO] at hn
          simp at hn
        · rw [if_neg hO] at hn
          simp at hn
      · intro hc
        exact absurd hc hP

/-- Witness for C9 at the constant history [2,2,2]. -/
theorem variability_constant_metric_advisory_witness :
    (2 ≤ ([mkOomRun 2, mkOomRun 2, mkOomRun 2] : List HistoricalRun).length ∧
      3 ≤ (([mkOomRun 2, mkOomRun 2, mkOomRun 2] : List HistoricalRun).filterMap
        fun r => r.memory).length) ∧
    (((∃ n, StressFinding.noVariabilityOom n ∈
        validate_variability [mkOomRun 2, mkOomRun 2, mkOomRun 2]) ↔
      (((([mkOomRun 2, mkOomRun 2, mkOomRun 2] : List HistoricalRun).filterMap
          fun r => r.memory).filterMap fun m => m.oom_events) ≠ [] ∧
        ((([mkOomRun 2, mkOomRun 2, mkOomRun 2] : List HistoricalRun).filterMap
          fun r => r.memory).filterMap
            fun m => m.oom_events).dedup.length = 1)) ∧
    ((∃ n, StressFinding.noVariabilityPeak n ∈
        validate_variability [mkOomRun 2, mkOomRun 2, mkOomRun 2]) ↔
      (((([mkOomRun 2, mkOomRun 2, mkOomRun 2] : List HistoricalRun).filterMap
          fun r => r.memory).filterMap fun m => m.peak_pressure) ≠ [] ∧
        ((([mkOomRun 2, mkOomRun 2, mkOomRun 2] : List HistoricalRun).filterMap
          fun r => r.memory).filterMap
            fun m => m.peak_pressure).dedup.length = 1)) ∧
    validate_variability [mkOomRun 2, mkOomRun 2, mkOomRun 2] =
      [StressFinding.noVariabilityOom 3] ∧
    validate_variability [mkOomRun 2, mkOomRun 3, mkOomRun 2] = []) :=
  ⟨⟨by decide, by decide⟩,
    variability_constant_metric_advisory [mkOomRun 2, mkOomRun 2, mkOomRun 2]
      (by decide) (by decide)⟩

/-- C10: an entry without the `passed` field defaults to passed in every
check: it is never counted as a memory-safety violation, critical
vulnerability, performance failure, or execution failure, so a document
whose entries all omit `passed` contributes zero failed claims to every
count (and those checks emit no findings). -/
theorem missing_passed_defaults_to_passed (doc : ResultsDoc)
    (h : ∀ e ∈ doc.entries, e.passed = none) :
    memoryViolations doc = 0 ∧ criticalVulns doc = 0 ∧
    performanceFailures doc = [] ∧ totalFailures doc = 0 ∧
    validate_security_metrics doc = ([], []) ∧
    validate_performance_metrics doc = ([], []) ∧
    validate_test_execution doc = ([], []) := by
  have hpassed : ∀ e ∈ doc.entries, e.passedD = true := fun e he => by
    rw [VEntry.passedD, h e he]
    rfl
  have hfilter : ∀ (p : VEntry → Bool),
      (doc.entries.filter fun e => p e && !e.passedD) = [] := by
    intro p
    apply List.filter_eq_nil_iff.mpr
    intro e he
    rw [hpassed e he]
    simp
  have hfail : (doc.entries.filter fun e => !e.passedD) = [] := by
    apply List.filter_eq_nil_iff.mpr
    intro e he
    rw [hpassed e he]
    simp
  have hmem : memoryViolations doc = 0 := by
    rw [memoryViolations, hfilter]
    rfl
  have hvuln : criticalVulns doc = 0 := by
    rw [criticalVulns, hfilter]
    rfl
  have hperf : performanceFailures doc = [] := by
    rw [performanceFailures, hfilter]
    rfl
  have htot : totalFailures doc = 0 := by
    rw [totalFailures, hfail]
    rfl
  refine ⟨hmem, hvuln, hperf, htot, ?_, ?_, ?_⟩
  · rw [validate_security_metrics, hmem, hvuln]
    rfl
  · rw [validate_performance_metrics, hperf]
    rfl
  · rw [validate_test_execution, htot]
    rfl

/-- Witness for C10: a document whose three entries all omit `passed`. -/
theorem missing_passed_defaults_to_passed_witness :
    (∀ e ∈ demoNoPassDoc.entries, e.passed = none) ∧
    (memoryViolations demoNoPassDoc = 0 ∧ criticalVulns demoNoPassDoc = 0 ∧
      performanceFailures demoNoPassDoc = [] ∧
      totalFailures demoNoPassDoc = 0 ∧
      validate_security_metrics demoNoPassDoc = ([], []) ∧
      validate_performance_metrics demoNoPassDoc = ([], []) ∧
      validate_test_execution demoNoPassDoc = ([], [])) :=
  ⟨by decide, missing_passed_defaults_to_passed demoNoPassDoc (by decide)⟩

end SIS
